import Mathlib



/-!
Verification of the boundary-normalization layer of the enVector MCP server
(`srcs/server.py` and `srcs/adapter/enVector_sdk.py`).

The Python runtime values that cross this layer are embedded as the inductive
type `PyVal`.  Numbers carry the Python `int` / `float` distinction (and
`bool`, which in Python is a subclass of `int` but not of `float`), because
the source dispatches on `isinstance(v, float)` versus `isinstance(v, (int,
float))`.  Python floats are modelled as exact rationals: this layer never
performs float arithmetic, it only moves float values around, so only the
identity of literals matters.  NumPy arrays are modelled by the constructor
`ndarray` carrying the nested-list value their `tolist()` method yields
(`NdContent`: nested lists of scalars — `tolist` can never return another
array).  Opaque engine-result objects are modelled by `obj`, carrying the
three optionally-present serialization attributes the sanitizer probes
(`model_dump` / `dict` / `to_dict`, each either absent, present-but-raising,
or returning a value), the optional `__dict__` attribute mapping, and the
`repr()` string.  Python `dict` keys at this boundary are strings (the
engine's payloads are string-keyed; the sanitizer's `str(k)` coercion is the
identity on them), so `dict` carries `String` keys.
-/

/-- Scalar element of a NumPy array, as produced by `ndarray.tolist()`. -/
inductive NdScalar where
  | i (n : Int)
  | f (q : Rat)
  | b (v : Bool)

deriving DecidableEq

/-- Contents of a NumPy array: `tolist()` yields either a bare scalar
(0-dimensional array) or a (nested) list — never another array. -/
inductive NdContent where
  | scalar (s : NdScalar)
  | arr (xs : List NdContent)

/-- Embedding of the Python runtime values crossing the normalization layer. -/
inductive PyVal where
  | none
  | bool (b : Bool)
  | int (n : Int)
  | float (q : Rat)
  | str (s : String)
  | list (xs : List PyVal)
  | tuple (xs : List PyVal)
  | set (xs : List PyVal)
  | dict (kvs : List (String × PyVal))
  | ndarray (c : NdContent)
  | obj (model_dump dictAttr to_dict : Option (Option PyVal))
        (attrs : Option (List (String × PyVal))) (rep : String)

namespace PyVal

/-- `isinstance(v, np.ndarray)`. -/
def isNdarrayB : PyVal → Bool
  | .ndarray _ => true
  | _ => false

/-- `isinstance(v, float)` — Python `bool`/`int` are not `float` instances. -/
def isFloatInstB : PyVal → Bool
  | .float _ => true
  | _ => false

/-- `isinstance(v, (int, float))` — Python `bool` is a subclass of `int`,
so booleans satisfy this check. -/
def isNumInstB : PyVal → Bool
  | .int _ => true
  | .float _ => true
  | .bool _ => true
  | _ => false

/-- `isinstance(v, str)`. -/
def isStrB : PyVal → Bool
  | .str _ => true
  | _ => false

/-- `isinstance(v, list)`. -/
def isListB : PyVal → Bool
  | .list _ => true
  | _ => false

/-- `type(v).__name__`, for the values this model distinguishes (opaque
objects are reported as "object": the model does not track class names). -/
def pyTypeName : PyVal → String
  | .none => "NoneType"
  | .bool _ => "bool"
  | .int _ => "int"
  | .float _ => "float"
  | .str _ => "str"
  | .list _ => "list"
  | .tuple _ => "tuple"
  | .set _ => "set"
  | .dict _ => "dict"
  | .ndarray _ => "ndarray"
  | .obj _ _ _ _ _ => "object"

end PyVal

/-- `ndarray.tolist()`: scalars become the corresponding Python scalar,
array levels become plain Python lists. -/
def ndTolist : NdContent → PyVal
  | .scalar (.i n) => .int n
  | .scalar (.f q) => .float q
  | .scalar (.b v) => .bool v
  | .arr xs => .list (xs.attach.map fun x => ndTolist x.1)
decreasing_by
  have := List.sizeOf_lt_of_mem x.2
  simp only [NdContent.arr.sizeOf_spec]
  omega

/-- Unwrap one list element in the `all(isinstance(v, np.ndarray) ...)`
branch: each element is an ndarray and is replaced by `v.tolist()`
(non-ndarray elements are unreachable under the branch guard). -/
def unwrapNd : PyVal → PyVal
  | .ndarray c => ndTolist c
  | v => v

/-!
A model of Python's `json.loads` (standard library, called by the source at
`server.py` vector/metadata/query normalization).  It implements the JSON
grammar: `null` / `true` / `false` / numbers (optional sign, fraction,
exponent; a number with a fraction or exponent becomes a Python `float`,
otherwise an `int`) / strings (with the standard escapes; `\u` escapes
outside the surrogate range) / arrays / objects.  Python-specific
extensions of `json.loads` beyond JSON (`NaN`, `Infinity`) are outside the
modelled fragment.  Parsing is fuel-indexed (fuel bounds the recursion
depth, amply covered by the input length) and returns `none` on any
malformed input, where `json.loads` raises `json.JSONDecodeError`.
-/

namespace PyJson

def isWsChar (c : Char) : Bool := c = ' ' || c = '\t' || c = '\n' || c = '\r'

def skipWs : List Char → List Char
  | c :: cs => if isWsChar c then skipWs cs else c :: cs
  | [] => []

def isDigitChar (c : Char) : Bool := '0' ≤ c && c ≤ '9'

def digitVal (c : Char) : Nat := c.toNat - '0'.toNat

/-- Split a leading run of decimal digits off the input. -/
def takeDigits : List Char → List Char × List Char
  | c :: cs =>
    if isDigitChar c then
      let (ds, r) := takeDigits cs
      (c :: ds, r)
    else ([], c :: cs)
  | [] => ([], [])

def digitsToNat (ds : List Char) : Nat := ds.foldl (fun a c => a * 10 + digitVal c) 0

def isHexChar (c : Char) : Bool :=
  isDigitChar c || ('a' ≤ c && c ≤ 'f') || ('A' ≤ c && c ≤ 'F')

def hexVal (c : Char) : Nat :=
  if isDigitChar c then c.toNat - '0'.toNat
  else if 'a' ≤ c && c ≤ 'f' then c.toNat - 'a'.toNat + 10
  else c.toNat - 'A'.toNat + 10

/-- Translate one escape character (the char after a backslash) to the
character it denotes, if it is a single-character escape. -/
def escChar : Char → Option Char
  | '"' => some '"'
  | '\\' => some '\\'
  | '/' => some '/'
  | 'b' => some (Char.ofNat 8)
  | 'f' => some (Char.ofNat 12)
  | 'n' => some '\n'
  | 'r' => some '\r'
  | 't' => some '\t'
  | _ => Option.none

/-- Parse the body of a JSON string (after the opening quote), handling the
standard escape sequences. -/
def parseStringBody : List Char → Option (String × List Char)
  | '"' :: r => some ("", r)
  | '\\' :: 'u' :: h1 :: h2 :: h3 :: h4 :: r =>
    if isHexChar h1 && isHexChar h2 && isHexChar h3 && isHexChar h4 then
      let n := ((hexVal h1 * 16 + hexVal h2) * 16 + hexVal h3) * 16 + hexVal h4
      if 0xd800 ≤ n && n ≤ 0xdfff then none
      else (parseStringBody r).map fun p => (String.mk (Char.ofNat n :: p.1.data), p.2)
    else none
  | '\\' :: e :: r =>
    match escChar e with
    | some c => (parseStringBody r).map fun p => (String.mk (c :: p.1.data), p.2)
    | Option.none => Option.none
  | c :: r =>
    if c.toNat < 0x20 then none
    else (parseStringBody r).map fun p => (String.mk (c :: p.1.data), p.2)
  | [] => none

/-- Parse a JSON number starting at the input head.  The grammar is
`-? int frac? exp?`; the result is a Python `float` exactly when a fraction
or exponent part is present, else an `int`. -/
def parseNumber (cs : List Char) : Option (PyVal × List Char) :=
  let (neg, cs1) := match cs with
    | '-' :: r => (true, r)
    | _ => (false, cs)
  let (ints, cs2) := takeDigits cs1
  if ints.isEmpty then none else
  let (hasFrac, fracs, cs3) := match cs2 with
    | '.' :: r =>
      let (ds, r2) := takeDigits r
      (true, ds, r2)
    | _ => (false, [], cs2)
  if hasFrac && fracs.isEmpty then none else
  let (hasExp, expNeg, exps, cs4) := match cs3 with
    | 'e' :: '-' :: r => let (ds, r2) := takeDigits r; (true, true, ds, r2)
    | 'e' :: '+' :: r => let (ds, r2) := takeDigits r; (true, false, ds, r2)
    | 'e' :: r => let (ds, r2) := takeDigits r; (true, false, ds, r2)
    | 'E' :: '-' :: r => let (ds, r2) := takeDigits r; (true, true, ds, r2)
    | 'E' :: '+' :: r => let (ds, r2) := takeDigits r; (true, false, ds, r2)
    | 'E' :: r => let (ds, r2) := takeDigits r; (true, false, ds, r2)
    | _ => (false, false, [], cs3)
  if hasExp && exps.isEmpty then none else
  let num0 : Int := (digitsToNat ints * 10 ^ fracs.length + digitsToNat fracs : Nat)
  let den0 : Nat := 10 ^ fracs.length
  let num1 : Int := if hasExp && !expNeg then num0 * (10 ^ digitsToNat exps : Nat) else num0
  let den1 : Nat := if hasExp && expNeg then den0 * 10 ^ digitsToNat exps else den0
  let signed : Rat := mkRat (if neg then -num1 else num1) den1
  some
    (if hasFrac || hasExp then PyVal.float signed
      else PyVal.int (if neg then -(digitsToNat ints : Int) else (digitsToNat ints : Int)),
      cs4)

/-- Parse one JSON value at the input head, returning it with the remaining
input.  Array and object tails are parsed by re-entering the function with
the opening bracket re-attached, so a single fuel-indexed structural
recursion covers the whole grammar. -/
def parseVal : Nat → List Char → Option (PyVal × List Char)
  | 0, _ => none
  | _ + 1, [] => none
  | fuel + 1, c :: cs =>
    if c = '[' then
      match skipWs cs with
      | ']' :: r => some (.list [], r)
      | body => do
        let (v, r) ← parseVal fuel body
        match skipWs r with
        | ',' :: r2 => do
          let (vs, r3) ← parseVal fuel ('[' :: r2)
          match vs with
          | .list tail => some (.list (v :: tail), r3)
          | _ => none
        | ']' :: r2 => some (.list [v], r2)
        | _ => none
    else if c = '{' then
      match skipWs cs with
      | '}' :: r => some (.dict [], r)
      | '"' :: body => do
        let (k, r) ← parseStringBody body
        match skipWs r with
        | ':' :: r2 => do
          let (v, r3) ← parseVal fuel (skipWs r2)
          match skipWs r3 with
          | ',' :: r4 => do
            let (vs, r5) ← parseVal fuel ('{' :: r4)
            match vs with
            | .dict tail => some (.dict ((k, v) :: tail), r5)
            | _ => none
          | '}' :: r4 => some (.dict [(k, v)], r4)
          | _ => none
        | _ => none
      | _ => none
    else if c = '"' then
      (parseStringBody cs).map fun p => (.str p.1, p.2)
    else
      match c :: cs with
      | 't' :: 'r' :: 'u' :: 'e' :: r => some (.bool true, r)
      | 'f' :: 'a' :: 'l' :: 's' :: 'e' :: r => some (.bool false, r)
      | 'n' :: 'u' :: 'l' :: 'l' :: r => some (.none, r)
      | cs2 => parseNumber cs2

end PyJson

/-- `json.loads`: parse a whole JSON document, requiring only whitespace to
remain after the value. -/
def json_loads (s : String) : Option PyVal :=
  match PyJson.parseVal (2 * s.length + 8) (PyJson.skipWs s.data) with
  | some (v, rest) => if PyJson.skipWs rest = [] then some v else none
  | Option.none => Option.none

/-!
The Response Sanitizer `EnVectorSDKAdapter._to_json_available`
(`srcs/adapter/enVector_sdk.py`, lines 109-137), embedded over `PyVal`
trees.  The branch order matches the source: primitives, mapping, sequence
(list/tuple/set, each rebuilt as a plain list), the capability cascade
(`model_dump` / `dict` / `to_dict`, first present attribute whose call does
not raise wins), the `__dict__` public-attribute mapping, and finally the
`repr()` string.  A NumPy array reaches the final fallback (it is not a
`list`/`tuple`/`set`/`dict`, exposes none of the three capability
attributes and has no `__dict__`), so it sanitizes to its `repr()` string,
whose exact text the model does not track.
-/

/-- `repr()` of a NumPy array; the model records only that it is a string
(the text itself is irrelevant to this layer). -/
def ndarrayRepr (_ : NdContent) : String := "array(...)"

/-- Python's `k.startswith("_")`: the attribute-name test the sanitizer
uses to drop private attributes. -/
def startsWithUnderscore (k : String) : Bool :=
  match k.data with
  | '_' :: _ => true
  | _ => false

/-- `EnVectorSDKAdapter._to_json_available`. -/
def to_json_available : PyVal → PyVal
  | .none => .none
  | .str s => .str s
  | .int n => .int n
  | .float q => .float q
  | .bool b => .bool b
  | .dict kvs => .dict (kvs.attach.map fun kv => (kv.1.1, to_json_available kv.1.2))
  | .list xs => .list (xs.attach.map fun x => to_json_available x.1)
  | .tuple xs => .list (xs.attach.map fun x => to_json_available x.1)
  | .set xs => .list (xs.attach.map fun x => to_json_available x.1)
  | .ndarray c => .str (ndarrayRepr c)
  | .obj (some (some v)) _ _ _ _ => to_json_available v
  | .obj _ (some (some v)) _ _ _ => to_json_available v
  | .obj _ _ (some (some v)) _ _ => to_json_available v
  | .obj _ _ _ (some kvs) _ =>
    .dict ((kvs.filter fun kv => !(startsWithUnderscore kv.1)).attach.map
      fun kv => (kv.1.1, to_json_available kv.1.2))
  | .obj _ _ _ Option.none rep => .str rep
decreasing_by
  · have := List.sizeOf_lt_of_mem kv.2
    simp only [PyVal.dict.sizeOf_spec]
    have h2 : sizeOf kv.1.2 < sizeOf kv.1 := by
      rcases kv.1 with ⟨a, b⟩
      simp only [Prod.mk.sizeOf_spec]
      omega
    omega
  · have := List.sizeOf_lt_of_mem x.2
    simp only [PyVal.list.sizeOf_spec]
    omega
  · have := List.sizeOf_lt_of_mem x.2
    simp only [PyVal.tuple.sizeOf_spec]
    omega
  · have := List.sizeOf_lt_of_mem x.2
    simp only [PyVal.set.sizeOf_spec]
    omega
  · simp only [PyVal.obj.sizeOf_spec, Option.some.sizeOf_spec]
    omega
  · simp only [PyVal.obj.sizeOf_spec, Option.some.sizeOf_spec]
    omega
  · simp only [PyVal.obj.sizeOf_spec, Option.some.sizeOf_spec]
    omega
  · have hmem := List.mem_of_mem_filter kv.2
    have := List.sizeOf_lt_of_mem hmem
    simp only [PyVal.obj.sizeOf_spec, Option.some.sizeOf_spec]
    have h2 : sizeOf kv.1.2 < sizeOf kv.1 := by
      rcases kv.1 with ⟨a, b⟩
      simp only [Prod.mk.sizeOf_spec]
      omega
    omega

/-!
The Engine Facade `EnVectorSDKAdapter.call_insert` / `call_search`
(`srcs/adapter/enVector_sdk.py`, lines 38-54 and 74-91).  The underlying
engine call (`invoke_insert` / `invoke_search`) reaches into the external
`es2` SDK, which is outside this layer; its outcome is therefore a
parameter: either a returned value or a raised exception.  A raised Python
exception is modelled by its class name and message; `repr(e)` for an
exception renders as `ClassName(args)` (the model elides the quoting of the
arguments). -/

/-- A raised Python exception, as observed by the facade's `except` block. -/
structure PyExc where
  name : String
  msg : String

/-- `repr(e)` of an exception: `ClassName(args)`. -/
def pyExcRepr (e : PyExc) : String := e.name ++ "(" ++ e.msg ++ ")"

/-- `EnVectorSDKAdapter.call_insert`, as a function of the outcome of the
engine call `invoke_insert`. -/
def call_insert (outcome : Except PyExc PyVal) : PyVal :=
  match outcome with
  | .ok results => to_json_available (.dict [("ok", .bool true), ("results", results)])
  | .error e => .dict [("ok", .bool false), ("error", .str (pyExcRepr e))]

/-- `EnVectorSDKAdapter.call_search`, as a function of the outcome of the
engine call `invoke_search`. -/
def call_search (outcome : Except PyExc PyVal) : PyVal :=
  match outcome with
  | .ok results => to_json_available (.dict [("ok", .bool true), ("results", results)])
  | .error e => .dict [("ok", .bool false), ("error", .str (pyExcRepr e))]

/-- Modelled from the spec: `call_create_index` is invoked by
`server.py`'s `tool_create_index` but its body is not under `src/`
(the adapter file there defines only the insert/search operations).
Per §4.3, every public facade operation invokes the engine call, sanitizes
the result into an `ok: true` envelope on success, and catches any raised
exception into an `ok: false` envelope. -/
def call_create_index (outcome : Except PyExc PyVal) : PyVal :=
  match outcome with
  | .ok results => to_json_available (.dict [("ok", .bool true), ("results", results)])
  | .error e => .dict [("ok", .bool false), ("error", .str (pyExcRepr e))]

/-- Modelled from the spec: `call_get_index_list` (see `call_create_index`). -/
def call_get_index_list (outcome : Except PyExc PyVal) : PyVal :=
  match outcome with
  | .ok results => to_json_available (.dict [("ok", .bool true), ("results", results)])
  | .error e => .dict [("ok", .bool false), ("error", .str (pyExcRepr e))]

/-- Modelled from the spec: `call_get_index_info` (see `call_create_index`). -/
def call_get_index_info (outcome : Except PyExc PyVal) : PyVal :=
  match outcome with
  | .ok results => to_json_available (.dict [("ok", .bool true), ("results", results)])
  | .error e => .dict [("ok", .bool false), ("error", .str (pyExcRepr e))]

/-- `tool_create_index` (`srcs/server.py`, lines 75-92): a passthrough
returning the facade's envelope. -/
def tool_create_index (outcome : Except PyExc PyVal) : PyVal := call_create_index outcome

/-- `tool_get_index_list` (`srcs/server.py`, lines 99-107). -/
def tool_get_index_list (outcome : Except PyExc PyVal) : PyVal := call_get_index_list outcome

/-- `tool_get_index_info` (`srcs/server.py`, lines 114-127). -/
def tool_get_index_info (outcome : Except PyExc PyVal) : PyVal := call_get_index_info outcome

/-- Key lookup in a `dict` value (`none` on non-dicts). -/
def envLookup (v : PyVal) (k : String) : Option PyVal :=
  match v with
  | .dict kvs => (kvs.find? fun kv => kv.1 = k).map fun kv => kv.2
  | _ => Option.none

/-- The ToolResult envelope contract: `ok` is a boolean that determines
which of `results` / `error` is present, exactly one of the two is present,
and in the `ok: false` case the error is a non-empty string. -/
def IsEnvelope (v : PyVal) : Prop :=
  (envLookup v "ok" = some (.bool true) ∧ (envLookup v "results").isSome
    ∧ envLookup v "error" = Option.none) ∨
  (envLookup v "ok" = some (.bool false) ∧ envLookup v "results" = Option.none
    ∧ ∃ s : String, envLookup v "error" = some (.str s) ∧ s ≠ "")

/-!
The Tool Dispatcher (`srcs/server.py`).  `tool_insert` (lines 137-190) and
`tool_search` (lines 197-254) are embedded as functions from the raw
arguments to either a raised fault or the exact request they hand to the
Engine Facade (`call_insert` / `call_search`); producing a request value is
the only way an invocation reaches the engine, so "the engine is never
called" is "no request value is produced".  The embedding collaborator
`EmbeddingAdapter.get_embedding` is external (it runs a model); it is a
parameter `emb : Option (PyVal → List PyVal)` — `none` when no embedding
adapter is configured, otherwise the function from the argument passed to
`get_embedding` to the returned list of embedding vectors.
-/

/-- Normalization of the `vectors` argument in `tool_insert`
(`srcs/server.py`, lines 157-171): an ndarray is wrapped as a one-element
batch of its `tolist()`; a list of ndarrays is converted element-wise; a
list of float instances is wrapped as a one-element batch; a string is
parsed as JSON, raising `ValueError` on parse failure; anything else
passes through unchanged. -/
def insertNormalizeVectors (v : PyVal) : Except String PyVal :=
  match v with
  | .ndarray c => .ok (.list [ndTolist c])
  | .list xs =>
    if xs.all PyVal.isNdarrayB then .ok (.list (xs.map unwrapNd))
    else if xs.all PyVal.isFloatInstB then .ok (.list [.list xs])
    else .ok (.list xs)
  | .str s =>
    match json_loads s with
    | some parsed => .ok parsed
    | Option.none =>
      .error ("Invalid format has used or failed to parse JSON for `vectors` parameter. Caused by: " ++ s)
  | w => .ok w

/-- Normalization of the `metadata` argument in `tool_insert`
(`srcs/server.py`, lines 173-185): a list passes through; a string is
parsed as JSON, and on parse failure is wrapped as a one-element list
containing the raw string; any other value is wrapped in a one-element
list. -/
def insertNormalizeMetadata (m : PyVal) : PyVal :=
  match m with
  | .list xs => .list xs
  | .str s =>
    match json_loads s with
    | some parsed => parsed
    | Option.none => .list [.str s]
  | w => .list [w]

/-- The arguments `tool_insert` passes to the facade's `call_insert`. -/
structure InsertCall where
  index_name : String
  vectors : Option PyVal
  metadata : Option PyVal

/-- `tool_insert` (`srcs/server.py`, lines 137-190), from the raw
`vectors` / `metadata` arguments (absent = `none`) to the raised
`ValueError` message or the `call_insert` request. -/
def tool_insert (emb : Option (PyVal → List PyVal)) (index_name : String)
    (vectors metadata : Option PyVal) : Except String InsertCall :=
  match vectors, metadata with
  | Option.none, Option.none => .error "`vectors` or `metadata` parameter must be provided."
  | v?, m? => do
    let v2 : Option PyVal ← match v? with
      | Option.none => pure Option.none
      | some v => (insertNormalizeVectors v).map some
    let m2 : Option PyVal := m?.map insertNormalizeMetadata
    let v3 : Option PyVal :=
      match v2, m2, emb with
      | Option.none, some m, some g => some (.list (g m))
      | _, _, _ => v2
    .ok ⟨index_name, v3, m2⟩

/-- A fault raised inside `_preprocess_query`: a `ValueError` (translated
by `tool_search` into a `ToolError`) or an `IndexError` from `[0]` on an
empty embedding result (which `except ValueError` does not catch). -/
inductive PreErr where
  | valueError (msg : String)
  | indexError

/-- Python `str.strip()`: drop leading and trailing whitespace
(space, tab, newline, carriage return, form feed, vertical tab). -/
def isPyWs (c : Char) : Bool :=
  c = ' ' || c = '\t' || c = '\n' || c = '\r' || c = Char.ofNat 12 || c = Char.ofNat 11

def pyStrip (s : String) : String :=
  String.mk (((s.data.dropWhile isPyWs).reverse.dropWhile isPyWs).reverse)

/-- `_is_vector` (`srcs/server.py`, lines 237-238). -/
def isVectorB (v : PyVal) : Bool :=
  match v with
  | .list xs => xs.all PyVal.isNumInstB
  | _ => false

/-- `isinstance(raw_query, list) and all(_is_vector(item) ...)`: the
batch-shaped check of `_preprocess_query`. -/
def isBatchB (v : PyVal) : Bool :=
  match v with
  | .list xs => xs.all isVectorB
  | _ => false

/-- The ndarray conversion step of `_preprocess_query` (`srcs/server.py`,
lines 232-235). -/
def queryConvert (q : PyVal) : PyVal :=
  match q with
  | .ndarray c => ndTolist c
  | .list xs => if xs.all PyVal.isNdarrayB then .list (xs.map unwrapNd) else .list xs
  | w => w

/-- The non-string tail of `_preprocess_query` (`srcs/server.py`, lines
232-248): ndarray conversion, then the `_is_vector` shape checks, else a
`ValueError` naming the received type. -/
def queryShape (q : PyVal) : Except PreErr PyVal :=
  if isVectorB (queryConvert q) then .ok (queryConvert q)
  else if isBatchB (queryConvert q) then .ok (queryConvert q)
  else .error (.valueError
    ("`query` must be a list of floats or a list of float lists. Received type: "
      ++ (queryConvert q).pyTypeName))

/-- `_preprocess_query` (`srcs/server.py`, lines 214-248), parametric in
the JSON parser so that its independence from the parser in the embedding
branch is statable.  A string argument is stripped; with an embedding
adapter configured it is embedded as free text (`get_embedding([s])[0]`);
otherwise an empty string and an unparseable string raise `ValueError`,
and a parsed one falls through to the shape checks. -/
def preprocess_queryP (parse : String → Option PyVal)
    (emb : Option (PyVal → List PyVal)) (q : PyVal) : Except PreErr PyVal :=
  match q with
  | .str s0 =>
    let s := pyStrip s0
    match emb with
    | some g =>
      match (g (.list [.str s])).head? with
      | some v => .ok v
      | Option.none => .error .indexError
    | Option.none =>
      if s = "" then
        .error (.valueError
          "`query` string is empty. Provide a JSON array of floats or precomputed embedding.")
      else
        match parse s with
        | some parsed => queryShape parsed
        | Option.none =>
          .error (.valueError
            ("Plain text is not supported for `query`. Convert the text into an embedding vector "
              ++ "and pass it as a JSON array (e.g., [[0.1, 0.2], ...])."))
  | w => queryShape w

/-- `_preprocess_query` with the real JSON parser. -/
def preprocess_query : Option (PyVal → List PyVal) → PyVal → Except PreErr PyVal :=
  preprocess_queryP json_loads

/-- A fault escaping `tool_search`: a `ToolError` (the protocol-level tool
fault FastMCP reports to the caller) or an uncaught exception. -/
inductive ToolFault where
  | toolError (msg : String)
  | uncaught

/-- The arguments `tool_search` passes to the facade's `call_search`. -/
structure SearchCall where
  index_name : String
  query : PyVal
  topk : Int

/-- `tool_search` (`srcs/server.py`, lines 197-254): preprocess the query,
translating a `ValueError` into a `ToolError`, then hand the preprocessed
query to `call_search`. -/
def tool_search (emb : Option (PyVal → List PyVal)) (index_name : String)
    (query : PyVal) (topk : Int) : Except ToolFault SearchCall :=
  match preprocess_query emb query with
  | .error (.valueError m) => .error (.toolError ("Invalid query parameter: " ++ m))
  | .error .indexError => .error .uncaught
  | .ok pq => .ok ⟨index_name, pq, topk⟩

/-!
Self-referential engine results (claim C3).  Python values can be cyclic
(`l = []; l.append(l)`); an inductive tree cannot represent them, so cyclic
inputs are embedded as a reference store: node identifiers mapped to
primitive / list / mapping nodes whose children are identifiers.
`sanitizeRefs` is `_to_json_available` over this store, indexed by the
recursion depth still available; the source has no cycle guard, so the
Python recursion depth on a value is exactly the depth this fuel models,
and a result of `none` at every fuel means no recursion depth suffices —
the source recurses without bound (in CPython, until `RecursionError`). -/
inductive GNode where
  | prim (v : PyVal)
  | arr (elems : List Nat)
  | gmap (kvs : List (String × Nat))

/-- `_to_json_available` over a reference store, fuel-indexed: primitives
sanitize as trees, list and mapping nodes recurse into their children one
reference deeper, exactly as the source recurses one call deeper. -/
def sanitizeRefs (store : Nat → GNode) : Nat → Nat → Option PyVal
  | 0, _ => Option.none
  | fuel + 1, r =>
    match store r with
    | .prim v => some (to_json_available v)
    | .arr es => (es.mapM fun e => sanitizeRefs store fuel e).map PyVal.list
    | .gmap kvs =>
      (kvs.mapM fun kv => (sanitizeRefs store fuel kv.2).map fun w => (kv.1, w)).map PyVal.dict

/-- The store of `l = []; l.append(l)`: one list node whose only element is
itself. -/
def cyclicStore : Nat → GNode := fun _ => .arr [0]

example : json_loads "[1, 2]" = some (.list [.int 1, .int 2]) := rfl

example : json_loads "[0.1, 0.2]" = some (.list [.float (mkRat 1 10), .float (mkRat 1 5)]) := rfl

example : json_loads "not json" = Option.none := rfl

example : json_loads "\"abc\"" = some (.str "abc") := rfl

/-! Unfolding lemmas for the sanitizer, with `attach` eliminated. -/

lemma tja_none : to_json_available .none = .none := by rw [to_json_available]

lemma tja_bool (b : Bool) : to_json_available (.bool b) = .bool b := by rw [to_json_available]

lemma tja_int (n : Int) : to_json_available (.int n) = .int n := by rw [to_json_available]

lemma tja_float (q : Rat) : to_json_available (.float q) = .float q := by rw [to_json_available]

lemma tja_str (s : String) : to_json_available (.str s) = .str s := by rw [to_json_available]

lemma attach_map_pairs (kvs : List (String × PyVal)) (f : PyVal → PyVal) :
    (kvs.attach.map fun kv => (kv.1.1, f kv.1.2)) = kvs.map fun kv => (kv.1, f kv.2) := by
  induction kvs with
  | nil => rfl
  | cons hd tl ih => simp_all [List.attach_cons, List.map_map, Function.comp_def]

lemma tja_dict (kvs : List (String × PyVal)) :
    to_json_available (.dict kvs) =
      .dict (kvs.map fun kv => (kv.1, to_json_available kv.2)) := by
  rw [to_json_available]
  rw [attach_map_pairs]

lemma tja_list (xs : List PyVal) :
    to_json_available (.list xs) = .list (xs.map to_json_available) := by
  rw [to_json_available]
  simp [List.attach_map_coe]

lemma tja_obj_rep (rep : String) :
    to_json_available (.obj Option.none Option.none Option.none Option.none rep) = .str rep := by
  rw [to_json_available] <;> simp

lemma tja_obj_attrs (kvs : List (String × PyVal)) (rep : String) :
    to_json_available (.obj Option.none Option.none Option.none (some kvs) rep) =
      .dict ((kvs.filter fun kv => !(startsWithUnderscore kv.1)).map
        fun kv => (kv.1, to_json_available kv.2)) := by
  rw [to_json_available]
  · rw [attach_map_pairs]
  all_goals simp

lemma tja_ok_wrapper (r : PyVal) :
    to_json_available (.dict [("ok", .bool true), ("results", r)]) =
      .dict [("ok", .bool true), ("results", to_json_available r)] := by
  rw [tja_dict]
  simp [tja_bool]

lemma pyExcRepr_ne_empty (e : PyExc) : pyExcRepr e ≠ "" := by
  intro h
  have h2 := congrArg String.data h
  simp [pyExcRepr, String.data_append] at h2

lemma envelope_IsEnvelope_ok (r : PyVal) :
    IsEnvelope (.dict [("ok", .bool true), ("results", r)]) :=
  Or.inl ⟨rfl, rfl, rfl⟩

lemma envelope_IsEnvelope_err (e : PyExc) :
    IsEnvelope (.dict [("ok", .bool false), ("error", .str (pyExcRepr e))]) :=
  Or.inr ⟨rfl, rfl, pyExcRepr e, rfl, pyExcRepr_ne_empty e⟩

lemma envelope_shape (x : Except PyExc PyVal) : IsEnvelope (call_insert x) := by
  rcases x with e | r
  · exact envelope_IsEnvelope_err e
  · have h : call_insert (.ok r) =
        .dict [("ok", .bool true), ("results", to_json_available r)] := by
      show to_json_available (.dict [("ok", .bool true), ("results", r)]) = _
      exact tja_ok_wrapper r
    rw [h]
    exact envelope_IsEnvelope_ok _

/-- C1: for every insert or search invocation of the Engine Facade, if the
engine call returns a value `r`, `call_insert` / `call_search` returns
`{ok: true, results: sanitized r}`; if the engine call raises an exception
`e`, the facade catches it and returns `{ok: false, error: repr e}` with a
non-empty error string, and (being a total function of the outcome) never
propagates the exception; every returned envelope has exactly one of
`results` / `error` present, determined by `ok`. -/
theorem C1_engine_facade_envelope :
    ∀ (r : PyVal) (e : PyExc),
      call_insert (.ok r) = .dict [("ok", .bool true), ("results", to_json_available r)] ∧
      call_search (.ok r) = .dict [("ok", .bool true), ("results", to_json_available r)] ∧
      call_insert (.error e) = .dict [("ok", .bool false), ("error", .str (pyExcRepr e))] ∧
      call_search (.error e) = .dict [("ok", .bool false), ("error", .str (pyExcRepr e))] ∧
      pyExcRepr e ≠ "" ∧
      ∀ x : Except PyExc PyVal, IsEnvelope (call_insert x) ∧ IsEnvelope (call_search x) := by
  intro r e
  refine ⟨tja_ok_wrapper r, tja_ok_wrapper r, rfl, rfl, pyExcRepr_ne_empty e, ?_⟩
  intro x
  exact ⟨envelope_shape x, envelope_shape x⟩

/-- C2: `create_index`, `get_index_list` and `get_index_info` are
index-management passthroughs of the Engine Facade: each tool returns the
facade's ToolResult envelope unchanged — `{ok: true, results}` on success,
`{ok: false, error}` when the engine raises — and is a total function of
the engine outcome, so an engine fault never escapes as an unhandled
fault. -/
theorem C2_index_tools_envelope :
    ∀ x : Except PyExc PyVal,
      tool_create_index x = call_create_index x ∧
      tool_get_index_list x = call_get_index_list x ∧
      tool_get_index_info x = call_get_index_info x ∧
      IsEnvelope (tool_create_index x) ∧
      IsEnvelope (tool_get_index_list x) ∧
      IsEnvelope (tool_get_index_info x) := by
  intro x
  exact ⟨rfl, rfl, rfl, envelope_shape x, envelope_shape x, envelope_shape x⟩

/-- C3, failing part (code_bug): on the self-referential list `l = [l]`,
the sanitizer's recursion never completes — no recursion depth returns a
value — contradicting the claim that it terminates on cyclic structures
with a JSON-safe value (the spec itself records the missing cycle guard as
a latent defect, §9). -/
theorem C3_cyclic_sanitize_diverges :
    ∀ fuel : Nat, sanitizeRefs cyclicStore fuel 0 = Option.none := by
  intro fuel
  induction fuel with
  | zero => rfl
  | succ n ih => simp [sanitizeRefs, cyclicStore, List.mapM, List.mapM.loop, ih]

/-- C4, counterexample: an object with none of the serialization
capabilities and no public attributes (its `__dict__` holds only the
private `_x`) sanitizes to the empty mapping `{}`, not to a non-empty
string. -/
theorem C4_counterexample :
    to_json_available
        (.obj Option.none Option.none Option.none (some [("_x", .int 1)]) "<A object>") =
      .dict [] ∧
    PyVal.isStrB
        (to_json_available
          (.obj Option.none Option.none Option.none (some [("_x", .int 1)]) "<A object>")) =
      false := by
  have h : to_json_available
      (.obj Option.none Option.none Option.none (some [("_x", .int 1)]) "<A object>") =
      .dict [] := by
    rw [tja_obj_attrs]
    rfl
  exact ⟨h, by rw [h]; rfl⟩

/-- C4, amended: an object with none of the recognized serialization
capabilities sanitizes without throwing to (a) its `repr()` string — a
non-empty string whenever `repr()` is non-empty, as Python's default
object `repr` always is — when it has no attribute mapping at all, and
(b) the empty mapping when it has an attribute mapping containing only
private (underscore-prefixed) attributes. -/
theorem C4_amended_no_capability_fallback :
    ∀ (rep : String) (kvs : List (String × PyVal)),
      rep ≠ "" →
      (∀ kv ∈ kvs, startsWithUnderscore kv.1) →
      ((∃ t : String,
          to_json_available (.obj Option.none Option.none Option.none Option.none rep) = .str t
            ∧ t ≠ "") ∧
        to_json_available (.obj Option.none Option.none Option.none (some kvs) rep) = .dict []) := by
  intro rep kvs hrep hpriv
  refine ⟨⟨rep, tja_obj_rep rep, hrep⟩, ?_⟩
  rw [tja_obj_attrs]
  have h : kvs.filter (fun kv => !(startsWithUnderscore kv.1)) = [] := by
    rw [List.filter_eq_nil_iff]
    intro kv hm
    simp [hpriv kv hm]
  rw [h]
  rfl

/-- Witness for the amended C4 at a concrete object. -/
theorem C4_amended_witness :
    ("<A object at 0x7f>" : String) ≠ "" ∧
    (∀ kv ∈ ([("_x", PyVal.int 1)] : List (String × PyVal)), startsWithUnderscore kv.1) ∧
    ((∃ t : String,
        to_json_available
            (.obj Option.none Option.none Option.none Option.none "<A object at 0x7f>") =
          .str t ∧ t ≠ "") ∧
      to_json_available
          (.obj Option.none Option.none Option.none (some [("_x", PyVal.int 1)])
            "<A object at 0x7f>") =
        .dict []) := by
  refine ⟨by decide, ?_, ?_⟩
  · intro kv hm
    simp only [List.mem_singleton] at hm
    subst hm
    decide
  · exact C4_amended_no_capability_fallback "<A object at 0x7f>" [("_x", PyVal.int 1)]
      (by decide) (by intro kv hm; simp only [List.mem_singleton] at hm; subst hm; decide)

/-- C5: the string-argument normalization is asymmetric between metadata
and vectors — for every string that fails JSON parsing, metadata
normalization wraps it as a one-element list and raises nothing, while
vectors normalization raises a `ValueError` whose message names the
offending string. -/
theorem C5_metadata_vectors_string_asymmetry :
    ∀ s : String, json_loads s = Option.none →
      insertNormalizeMetadata (.str s) = .list [.str s] ∧
      insertNormalizeVectors (.str s) =
        .error ("Invalid format has used or failed to parse JSON for `vectors` parameter. Caused by: "
          ++ s) := by
  intro s h
  constructor
  · simp [insertNormalizeMetadata, h]
  · simp [insertNormalizeVectors, h]

/-- Witness for C5 at the spec's example string. -/
theorem C5_witness :
    json_loads "not json" = Option.none ∧
    insertNormalizeMetadata (.str "not json") = .list [.str "not json"] ∧
    insertNormalizeVectors (.str "not json") =
      .error ("Invalid format has used or failed to parse JSON for `vectors` parameter. Caused by: "
        ++ "not json") := by
  refine ⟨rfl, ?_, ?_⟩
  · exact (C5_metadata_vectors_string_asymmetry "not json" rfl).1
  · exact (C5_metadata_vectors_string_asymmetry "not json" rfl).2

/-- C6: calling the insert tool with both `vectors` and `metadata` absent
raises the validation fault before any engine interaction — `tool_insert`
returns the raised `ValueError` and no `InsertCall` request (the only way
the facade's `call_insert` is ever reached) is produced, for every
embedding configuration and index name. -/
theorem C6_insert_requires_vectors_or_metadata :
    ∀ (emb : Option (PyVal → List PyVal)) (index_name : String),
      tool_insert emb index_name Option.none Option.none =
        .error "`vectors` or `metadata` parameter must be provided." := by
  intro emb index_name
  rfl

/-- C7: for every search whose `query` argument is a string that is not
valid JSON, with no embedding collaborator configured, `tool_search`
raises the protocol-level `ToolError` (the stripped-empty and the
parse-failure messages both instruct the caller to supply a JSON array of
floats), and no `SearchCall` request — the only way the facade's
`call_search` is ever reached — is produced. -/
theorem C7_plain_text_query_without_embedding_rejected :
    ∀ (s index_name : String) (topk : Int), json_loads (pyStrip s) = Option.none →
      ∃ m : String,
        tool_search Option.none index_name (.str s) topk = .error (.toolError m) ∧
        (m = "Invalid query parameter: "
            ++ "`query` string is empty. Provide a JSON array of floats or precomputed embedding." ∨
          m = "Invalid query parameter: "
            ++ "Plain text is not supported for `query`. Convert the text into an embedding vector "
            ++ "and pass it as a JSON array (e.g., [[0.1, 0.2], ...]).") := by
  intro s index_name topk h
  by_cases he : pyStrip s = ""
  · refine ⟨_, ?_, Or.inl rfl⟩
    simp [tool_search, preprocess_query, preprocess_queryP, he]
  · refine ⟨_, ?_, Or.inr rfl⟩
    simp [tool_search, preprocess_query, preprocess_queryP, he, h]

/-- Witness for C7 at the spec's example string. -/
theorem C7_witness :
    json_loads (pyStrip "not json") = Option.none ∧
    ∃ m : String,
      tool_search Option.none "idx" (.str "not json") 5 = .error (.toolError m) ∧
      (m = "Invalid query parameter: "
          ++ "`query` string is empty. Provide a JSON array of floats or precomputed embedding." ∨
        m = "Invalid query parameter: "
          ++ "Plain text is not supported for `query`. Convert the text into an embedding vector "
          ++ "and pass it as a JSON array (e.g., [[0.1, 0.2], ...]).") := by
  constructor
  · rfl
  · exact C7_plain_text_query_without_embedding_rejected "not json" "idx" 5 rfl

/-- C10: with an embedding collaborator configured, a string query is
handled independently of the JSON parser (it is never JSON-parsed), and
the preprocessed query is exactly the embedding of the stripped string
passed as free text, `get_embedding([s.strip()])[0]` — including for the
empty string and for JSON-encoded arrays such as "[0.1, 0.2]". -/
theorem C10_embedding_query_free_text_never_parsed :
    (∀ (p1 p2 : String → Option PyVal) (g : PyVal → List PyVal) (s : String),
      preprocess_queryP p1 (some g) (.str s) = preprocess_queryP p2 (some g) (.str s)) ∧
    (∀ (g : PyVal → List PyVal) (s : String) (v : PyVal),
      g (.list [.str (pyStrip s)]) = [v] →
        preprocess_query (some g) (.str s) = .ok v) := by
  constructor
  · intro p1 p2 g s
    rfl
  · intro g s v h
    simp [preprocess_query, preprocess_queryP, h]

/-- Witness for C10: a constant embedding collaborator applied to the
JSON-encoded query string "[0.1, 0.2]" — the result is the collaborator's
output, not the parsed numeric array. -/
theorem C10_witness :
    (fun _ : PyVal => [PyVal.list []]) (.list [.str (pyStrip "[0.1, 0.2]")]) = [PyVal.list []] ∧
    preprocess_query (some fun _ => [PyVal.list []]) (.str "[0.1, 0.2]") = .ok (.list []) := by
  constructor
  · rfl
  · exact (C10_embedding_query_free_text_never_parsed.2 (fun _ => [PyVal.list []])
      "[0.1, 0.2]" (.list []) rfl)

/-- C8, counterexample: a flat list of numbers that are Python `int`
instances — `[1, 2, 3]` — is NOT wrapped as a one-element batch: the
wrap branch tests `isinstance(v, float)` on every element, so the list
passes through unchanged. -/
theorem C8_counterexample :
    insertNormalizeVectors (.list [.int 1, .int 2, .int 3]) =
      .ok (.list [.int 1, .int 2, .int 3]) ∧
    insertNormalizeVectors (.list [.int 1, .int 2, .int 3]) ≠
      .ok (.list [.list [.int 1, .int 2, .int 3]]) := by
  have h : insertNormalizeVectors (.list [.int 1, .int 2, .int 3]) =
      .ok (.list [.int 1, .int 2, .int 3]) := rfl
  refine ⟨h, ?_⟩
  rw [h]
  intro hc
  simp at hc

/-- C8, amended: a nonempty flat list all of whose elements are `float`
instances is treated as a single vector and wrapped as a one-element
batch; in particular `[0.1, 0.2, 0.3]` normalizes to
`[[0.1, 0.2, 0.3]]` (see the witness).  Flat lists containing `int`
elements pass through unwrapped (see the counterexample). -/
theorem C8_amended_flat_float_list_wraps :
    ∀ xs : List PyVal, xs ≠ [] → (∀ x ∈ xs, PyVal.isFloatInstB x) →
      insertNormalizeVectors (.list xs) = .ok (.list [.list xs]) := by
  intro xs hne hall
  have h1 : xs.all PyVal.isFloatInstB = true := by
    rw [List.all_eq_true]
    exact hall
  have h2 : xs.all PyVal.isNdarrayB = false := by
    cases xs with
    | nil => exact absurd rfl hne
    | cons a t =>
      have ha := hall a (List.mem_cons_self a t)
      cases a <;> simp_all [PyVal.isFloatInstB, PyVal.isNdarrayB]
  simp [insertNormalizeVectors, h1, h2]

/-- Witness for the amended C8 at the spec's example `[0.1, 0.2, 0.3]`. -/
theorem C8_witness :
    ([.float (mkRat 1 10), .float (mkRat 1 5), .float (mkRat 3 10)] : List PyVal) ≠ [] ∧
    (∀ x ∈ ([.float (mkRat 1 10), .float (mkRat 1 5), .float (mkRat 3 10)] : List PyVal),
      PyVal.isFloatInstB x) ∧
    insertNormalizeVectors
        (.list [.float (mkRat 1 10), .float (mkRat 1 5), .float (mkRat 3 10)]) =
      .ok (.list [.list [.float (mkRat 1 10), .float (mkRat 1 5), .float (mkRat 3 10)]]) := by
  refine ⟨by simp, by simp [PyVal.isFloatInstB], ?_⟩
  exact C8_amended_flat_float_list_wraps _ (by simp) (by simp [PyVal.isFloatInstB])

/-- C9, counterexample: insert vector normalization is not idempotent —
the JSON string "[0.1, 0.2]" normalizes to the flat float list
`[0.1, 0.2]`, and re-applying the normalization to that output wraps it
into `[[0.1, 0.2]]`, a different value. -/
theorem C9_counterexample :
    insertNormalizeVectors (.str "[0.1, 0.2]") =
      .ok (.list [.float (mkRat 1 10), .float (mkRat 1 5)]) ∧
    insertNormalizeVectors (.list [.float (mkRat 1 10), .float (mkRat 1 5)]) =
      .ok (.list [.list [.float (mkRat 1 10), .float (mkRat 1 5)]]) ∧
    (PyVal.list [.list [.float (mkRat 1 10), .float (mkRat 1 5)]] ≠
      .list [.float (mkRat 1 10), .float (mkRat 1 5)]) := by
  refine ⟨rfl, rfl, ?_⟩
  intro h
  simp at h

lemma ndTolist_not_nd (c : NdContent) : PyVal.isNdarrayB (ndTolist c) = false := by
  cases c with
  | scalar s => cases s <;> (rw [ndTolist]; rfl)
  | arr xs => rw [ndTolist]; rfl

lemma unwrapNd_not_nd (x : PyVal) : PyVal.isNdarrayB (unwrapNd x) = false := by
  cases x
  case ndarray c => exact ndTolist_not_nd c
  all_goals rfl

/-- Every successful output of the `_is_vector`-based shape phase is a
vector or a batch. -/
lemma queryShape_ok_shape {x pq : PyVal} (h : queryShape x = .ok pq) :
    isVectorB pq = true ∨ isBatchB pq = true := by
  unfold queryShape at h
  split at h
  · rw [Except.ok.injEq] at h
    subst h
    left
    assumption
  · split at h
    · rw [Except.ok.injEq] at h
      subst h
      right
      assumption
    · cases h

lemma vector_or_batch_is_list {pq : PyVal}
    (h : isVectorB pq = true ∨ isBatchB pq = true) : ∃ xs, pq = .list xs := by
  rcases h with h | h <;> cases pq <;> simp_all [isVectorB, isBatchB]

/-- A vector or batch is a fixed point of the shape phase. -/
lemma queryShape_fixed {xs : List PyVal}
    (h : isVectorB (.list xs) = true ∨ isBatchB (.list xs) = true) :
    queryShape (.list xs) = .ok (.list xs) := by
  cases xs with
  | nil => rfl
  | cons a t =>
    have hnd : (a :: t).all PyVal.isNdarrayB = false := by
      rcases h with h | h
      · simp only [isVectorB, List.all_cons, Bool.and_eq_true] at h
        cases a <;> simp_all [PyVal.isNumInstB, PyVal.isNdarrayB]
      · simp only [isBatchB, List.all_cons, Bool.and_eq_true] at h
        cases a <;> simp_all [isVectorB, PyVal.isNdarrayB]
    have hconv : queryConvert (.list (a :: t)) = .list (a :: t) := by
      simp [queryConvert, hnd]
    rcases h with h | h
    · simp [queryShape, hconv, h]
    · by_cases hv : isVectorB (.list (a :: t))
      · simp [queryShape, hconv, hv]
      · simp [queryShape, hconv, hv, h]

/-- On a non-string argument, `_preprocess_query` is the shape phase
(no stripping, no embedding, no parsing happens). -/
lemma preprocess_nonstr (parse : String → Option PyVal)
    (emb : Option (PyVal → List PyVal)) (w : PyVal) (hw : PyVal.isStrB w = false) :
    preprocess_queryP parse emb w = queryShape w := by
  cases w <;> simp_all [preprocess_queryP, PyVal.isStrB]

/-- Every successful query preprocessing (no embedding) goes through the
shape phase. -/
lemma preprocess_ok_via_shape {q pq : PyVal}
    (h : preprocess_query Option.none q = .ok pq) : ∃ x, queryShape x = .ok pq := by
  cases q
  case str s0 =>
    simp only [preprocess_query, preprocess_queryP] at h
    split at h
    · cases h
    · split at h
      · exact ⟨_, h⟩
      · cases h
  all_goals
    simp only [preprocess_query, preprocess_queryP] at h
    exact ⟨_, h⟩

/-- Idempotence of query preprocessing without an embedding adapter. -/
lemma preprocess_idem {q pq : PyVal}
    (h : preprocess_query Option.none q = .ok pq) :
    preprocess_query Option.none pq = .ok pq := by
  obtain ⟨x, hx⟩ := preprocess_ok_via_shape h
  have hs := queryShape_ok_shape hx
  obtain ⟨xs, rfl⟩ := vector_or_batch_is_list hs
  show preprocess_queryP json_loads Option.none (.list xs) = .ok (.list xs)
  rw [preprocess_nonstr json_loads Option.none (.list xs) rfl]
  exact queryShape_fixed hs

/-- A successfully parsed JSON number is a float or an int. -/
lemma parseNumber_shape {cs : List Char} {v : PyVal} {rest : List Char}
    (h : PyJson.parseNumber cs = some (v, rest)) :
    (∃ q, v = .float q) ∨ (∃ n, v = .int n) := by
  unfold PyJson.parseNumber at h
  repeat' split at h
  all_goals try cases h
  all_goals first | exact Or.inl ⟨_, rfl⟩ | exact Or.inr ⟨_, rfl⟩

/-- A parsed JSON value is never an ndarray, and a parsed JSON array
contains no ndarray elements (the parser only builds JSON primitives,
strings, arrays and objects). -/
lemma parseVal_no_nd :
    ∀ (fuel : Nat) (cs : List Char) (v : PyVal) (rest : List Char),
      PyJson.parseVal fuel cs = some (v, rest) →
      PyVal.isNdarrayB v = false ∧
        (∀ xs, v = .list xs → ∀ y ∈ xs, PyVal.isNdarrayB y = false) := by
  intro fuel
  induction fuel with
  | zero => intro cs v rest h; cases h
  | succ n ih =>
    intro cs v rest h
    cases cs with
    | nil => cases h
    | cons c cs' =>
      rw [PyJson.parseVal] at h
      split at h
      · -- '[' branch
        split at h
        · -- immediate "]": v = .list []
          cases h
          refine ⟨rfl, ?_⟩
          intro xs hxs y hy
          injection hxs with hxs
          subst hxs
          cases hy
        · -- nonempty array body
          simp only [bind, Option.bind_eq_some] at h
          obtain ⟨⟨v1, r⟩, hp, h⟩ := h
          split at h
          · -- ',' : the tail re-parsed as an array
            simp only [bind, Option.bind_eq_some] at h
            obtain ⟨⟨vs, r3⟩, hp2, h⟩ := h
            cases vs <;> cases h
            refine ⟨rfl, ?_⟩
            intro xs hxs y hy
            injection hxs with hxs
            subst hxs
            rcases List.mem_cons.mp hy with hy | hy
            · subst hy
              exact (ih _ _ _ hp).1
            · exact (ih _ _ _ hp2).2 _ rfl y hy
          · -- ']' : singleton array
            cases h
            refine ⟨rfl, ?_⟩
            intro xs hxs y hy
            injection hxs with hxs
            subst hxs
            rcases List.mem_cons.mp hy with hy | hy
            · subst hy
              exact (ih _ _ _ hp).1
            · cases hy
          · cases h
      · -- not '['
        split at h
        · -- '{' branch: every success is a dict
          split at h
          · -- immediate "}"
            cases h
            exact ⟨rfl, by intro xs hxs; cases hxs⟩
          · -- '"' key
            simp only [bind, Option.bind_eq_some] at h
            obtain ⟨⟨k, r⟩, hp, h⟩ := h
            split at h
            · -- ':' then a value
              simp only [bind, Option.bind_eq_some] at h
              obtain ⟨⟨v1, r3⟩, hp2, h⟩ := h
              split at h
              · -- ',' : the tail re-parsed as an object
                simp only [bind, Option.bind_eq_some] at h
                obtain ⟨⟨vs, r5⟩, hp3, h⟩ := h
                cases vs <;> cases h
                exact ⟨rfl, by intro xs hxs; cases hxs⟩
              · -- '}' : singleton object
                cases h
                exact ⟨rfl, by intro xs hxs; cases hxs⟩
              · cases h
            · cases h
          · cases h
        · -- not '{'
          split at h
          · -- '"' : a string
            simp only [Option.map_eq_some'] at h
            obtain ⟨⟨t, r⟩, -, h⟩ := h
            cases h
            exact ⟨rfl, by intro xs hxs; cases hxs⟩
          · -- literals and numbers
            split at h
            all_goals try (cases h; exact ⟨rfl, by intro xs hxs; cases hxs⟩)
            rcases parseNumber_shape h with ⟨q, hq⟩ | ⟨m, hm⟩
            · subst hq
              exact ⟨rfl, by intro xs hxs; cases hxs⟩
            · subst hm
              exact ⟨rfl, by intro xs hxs; cases hxs⟩

/-- A list with no ndarray elements that is not flagged as a flat float
list is a fixed point of the insert vectors normalization. -/
lemma insertNorm_list_fixed {ys : List PyVal}
    (hnd : ∀ y ∈ ys, PyVal.isNdarrayB y = false)
    (hff : ys ≠ [] → ys.all PyVal.isFloatInstB = false) :
    insertNormalizeVectors (.list ys) = .ok (.list ys) := by
  cases ys with
  | nil => rfl
  | cons a t =>
    have h1 : (a :: t).all PyVal.isNdarrayB = false := by
      simp [List.all_cons, hnd a (List.mem_cons_self a t)]
    have h2 := hff (by simp)
    simp [insertNormalizeVectors, h1, h2]

/-- Inversion for `json_loads`: a parsed document comes from a successful
`parseVal` run. -/
lemma json_loads_some {s : String} {v : PyVal} (h : json_loads s = some v) :
    ∃ rest, PyJson.parseVal (2 * s.length + 8) (PyJson.skipWs s.data) = some (v, rest) := by
  unfold json_loads at h
  split at h
  next v2 rest2 heq =>
    split at h
    · cases h
      exact ⟨rest2, heq⟩
    · cases h
  next heq => cases h

/-- Idempotence of the insert vectors normalization, away from the
string-decoding outputs that break it. -/
lemma insertNorm_idem {v out : PyVal}
    (h : insertNormalizeVectors v = .ok out)
    (hstr : PyVal.isStrB out = false)
    (hff : ∀ xs, out = .list xs → xs ≠ [] → xs.all PyVal.isFloatInstB = false) :
    insertNormalizeVectors out = .ok out := by
  cases v with
  | ndarray c =>
    have h' : (Except.ok (PyVal.list [ndTolist c]) : Except String PyVal) = .ok out := h
    injection h' with h2
    subst h2
    apply insertNorm_list_fixed
    · intro y hy
      have hy2 := List.mem_singleton.mp hy
      subst hy2
      exact ndTolist_not_nd c
    · intro _
      exact hff _ rfl (by simp)
  | list xs =>
    by_cases hnd : xs.all PyVal.isNdarrayB
    · have h' : (Except.ok (PyVal.list (xs.map unwrapNd)) : Except String PyVal) = .ok out := by
        simpa [insertNormalizeVectors, hnd] using h
      injection h' with h2
      subst h2
      apply insertNorm_list_fixed
      · intro y hy
        obtain ⟨x, -, rfl⟩ := List.mem_map.mp hy
        exact unwrapNd_not_nd x
      · intro hne
        exact hff _ rfl hne
    · by_cases hfl : xs.all PyVal.isFloatInstB
      · have h' : (Except.ok (PyVal.list [.list xs]) : Except String PyVal) = .ok out := by
          simpa [insertNormalizeVectors, hnd, hfl] using h
        injection h' with h2
        subst h2
        apply insertNorm_list_fixed
        · intro y hy
          have hy2 := List.mem_singleton.mp hy
          subst hy2
          rfl
        · intro _
          rfl
      · have h' : (Except.ok (PyVal.list xs) : Except String PyVal) = .ok out := by
          simpa [insertNormalizeVectors, hnd, hfl] using h
        injection h' with h2
        subst h2
        simp [insertNormalizeVectors, hnd, hfl]
  | str s =>
    cases hp : json_loads s with
    | none => simp [insertNormalizeVectors, hp] at h
    | some parsed =>
      have h2 : parsed = out := by simpa [insertNormalizeVectors, hp] using h
      subst h2
      obtain ⟨rest, hpv⟩ := json_loads_some hp
      have hnn := parseVal_no_nd _ _ _ _ hpv
      cases parsed with
      | list ys =>
        apply insertNorm_list_fixed
        · intro y hy
          exact hnn.2 ys rfl y hy
        · intro hne
          exact hff _ rfl hne
      | str t => cases hstr
      | ndarray c => cases hnn.1
      | none => rfl
      | bool b => rfl
      | int n => rfl
      | float q => rfl
      | tuple ts => rfl
      | set ts => rfl
      | dict kvs => rfl
      | obj a b c d e => rfl
  | none =>
    have h' : (Except.ok PyVal.none : Except String PyVal) = .ok out := h
    injection h' with h2
    subst h2
    rfl
  | bool b =>
    have h' : (Except.ok (PyVal.bool b) : Except String PyVal) = .ok out := h
    injection h' with h2
    subst h2
    rfl
  | int n =>
    have h' : (Except.ok (PyVal.int n) : Except String PyVal) = .ok out := h
    injection h' with h2
    subst h2
    rfl
  | float q =>
    have h' : (Except.ok (PyVal.float q) : Except String PyVal) = .ok out := h
    injection h' with h2
    subst h2
    rfl
  | tuple ts =>
    have h' : (Except.ok (PyVal.tuple ts) : Except String PyVal) = .ok out := h
    injection h' with h2
    subst h2
    rfl
  | set ts =>
    have h' : (Except.ok (PyVal.set ts) : Except String PyVal) = .ok out := h
    injection h' with h2
    subst h2
    rfl
  | dict kvs =>
    have h' : (Except.ok (PyVal.dict kvs) : Except String PyVal) = .ok out := h
    injection h' with h2
    subst h2
    rfl
  | obj a b c d e =>
    have h' : (Except.ok (PyVal.obj a b c d e) : Except String PyVal) = .ok out := h
    injection h' with h2
    subst h2
    rfl

/-- C9, amended: the query normalization of `search` (with no embedding
collaborator configured) is idempotent — every successful output is a
fixed point; the vectors normalization of `insert` is idempotent on every
input whose output is neither a string nor a nonempty list consisting
entirely of float instances (a JSON string decoding to a flat float list,
such as "[0.1, 0.2]", or to a string re-normalizes to a different value;
see the counterexample). -/
theorem C9_amended_normalizer_idempotence :
    (∀ q pq : PyVal, preprocess_query Option.none q = .ok pq →
      preprocess_query Option.none pq = .ok pq) ∧
    (∀ v out : PyVal, insertNormalizeVectors v = .ok out →
      PyVal.isStrB out = false →
      (∀ xs, out = .list xs → xs ≠ [] → xs.all PyVal.isFloatInstB = false) →
      insertNormalizeVectors out = .ok out) := by
  constructor
  · intro q pq h
    exact preprocess_idem h
  · intro v out h hstr hff
    exact insertNorm_idem h hstr hff

/-- Witness for the amended C9: the batch-shaped JSON string
"[[0.1], [0.2]]" normalizes (as query and as insert vectors) to the batch
`[[0.1], [0.2]]`, and that output is a fixed point of both
normalizations. -/
theorem C9_witness :
    preprocess_query Option.none (.str "[[0.1], [0.2]]") =
      .ok (.list [.list [.float (mkRat 1 10)], .list [.float (mkRat 1 5)]]) ∧
    preprocess_query Option.none
        (.list [.list [.float (mkRat 1 10)], .list [.float (mkRat 1 5)]]) =
      .ok (.list [.list [.float (mkRat 1 10)], .list [.float (mkRat 1 5)]]) ∧
    insertNormalizeVectors (.str "[[0.1], [0.2]]") =
      .ok (.list [.list [.float (mkRat 1 10)], .list [.float (mkRat 1 5)]]) ∧
    insertNormalizeVectors
        (.list [.list [.float (mkRat 1 10)], .list [.float (mkRat 1 5)]]) =
      .ok (.list [.list [.float (mkRat 1 10)], .list [.float (mkRat 1 5)]]) := by
  refine ⟨rfl, ?_, rfl, ?_⟩
  · exact C9_amended_normalizer_idempotence.1 (.str "[[0.1], [0.2]]") _ rfl
  · refine C9_amended_normalizer_idempotence.2 (.str "[[0.1], [0.2]]") _ rfl rfl ?_
    intro xs hxs hne
    injection hxs with hxs
    subst hxs
    rfl
